import Mathlib

/-
Shallow embedding of the room / participant admission state machine of
`src/server.js` (a socket-based video-conference signaling server).

Modelling conventions:
  * JavaScript objects keyed by participant / room identifier are modelled as
    association lists `List (String × α)` with JS object semantics:
    `obj[k] = v` updates the existing entry in place (keeping its position in
    insertion order) or appends a new one; `delete obj[k]` removes the entry;
    `Object.keys` / `Object.values` enumerate entries in insertion order.
  * Timestamps (`new Date()`) are modelled as `Nat` values passed in by the
    caller; message ids (`uuidv4()`) are `String` arguments.
  * Every socket emission performed by a handler is recorded in an output
    event list (`List Ev`).  The choice of constructor records the audience
    used in the source (`socket.emit`, `io.to(id)`, `io.to(roomId)` which
    includes the sender, `socket.to(roomId)` which excludes it).
  * `io.sockets.sockets.get(id)` (whether the peer connection is still alive)
    is modelled by membership of the id in an explicit `live : List String`
    argument.
  * `setTimeout` bodies are modelled as separate functions that take the
    registry state at fire time (`fireEviction`); their scheduling is
    recorded as an event.
-/

/-- Lowercase an ASCII letter, leaving every other character unchanged. -/
def lowerChar (c : Char) : Char :=
  if 65 ≤ c.toNat ∧ c.toNat ≤ 90 then Char.ofNat (c.toNat + 32) else c

/-- Character-wise ASCII lowercasing of a string (kernel-reducible model of
`String.toLowerCase`, used only to state case-insensitive comparisons). -/
def lowerStr (s : String) : String := ⟨s.data.map lowerChar⟩

/-- Kernel-reducible model of JavaScript `String.prototype.trim`. -/
def strTrim (s : String) : String :=
  ⟨((s.data.dropWhile Char.isWhitespace).reverse.dropWhile Char.isWhitespace).reverse⟩

/-- Length of a string in characters (model of JS `.length`). -/
def strLen (s : String) : Nat := s.data.length

/-- Last `n` elements of a list (model of JS `Array.prototype.slice(-n)`). -/
def takeLast (l : List α) (n : Nat) : List α := l.drop (l.length - n)

/-- Lookup in a JS-object association list (`obj[k]`). -/
def alookup : List (String × α) → String → Option α
  | [], _ => none
  | q :: rest, k => if q.1 = k then some q.2 else alookup rest k

/-- Key set of a JS-object association list, in insertion order
(`Object.keys`). -/
def akeys (l : List (String × α)) : List String := l.map (fun q => q.1)

/-- Deletion from a JS-object association list (`delete obj[k]`). -/
def aerase (l : List (String × α)) (k : String) : List (String × α) :=
  l.filter (fun q => q.1 ≠ k)

/-- Assignment in a JS-object association list (`obj[k] = v`): update in
place when the key is present, append otherwise. -/
def aset (l : List (String × α)) (k : String) (v : α) : List (String × α) :=
  if (alookup l k).isSome then
    l.map (fun q => if q.1 = k then (k, v) else q)
  else l ++ [(k, v)]

/-- Participant record (`room.participants[id]` in `src/server.js`). -/
structure Participant where
  id : String
  username : String
  peerId : String
  socketId : String
  joinedAt : Nat
  audioEnabled : Bool
  videoEnabled : Bool
  isHost : Bool
deriving Repr, DecidableEq

/-- Waiting-room entry (`room.waitingRoom[id]` in `src/server.js`). -/
structure WaitingEntry where
  id : String
  username : String
  peerId : String
  socketId : String
  requestedAt : Nat
deriving Repr, DecidableEq

/-- Chat message (`room.chatMessages` elements in `src/server.js`). -/
structure ChatMessage where
  id : String
  username : String
  message : String
  timestamp : Nat
  senderId : String
  isHost : Bool
deriving Repr, DecidableEq

/-- Room state (`rooms[roomId]` in `src/server.js`). -/
structure Room where
  id : String
  participants : List (String × Participant)
  waitingRoom : List (String × WaitingEntry)
  chatMessages : List ChatMessage
  hostId : Option String
  createdAt : Nat
  requireApproval : Bool
  allowChat : Bool
deriving Repr, DecidableEq

/-- The process-wide room registry (`const rooms = {}`). -/
abbrev Registry := List (String × Room)

/-- Socket emissions performed by the handlers.  Each constructor corresponds
to one `emit` site in `src/server.js` and records the payload fields the
claims refer to. -/
inductive Ev where
  | roomError (msg : String)
  | errMsg (msg : String)
  | admissionApprovedHost (chat : List ChatMessage) (parts : List (String × Participant))
  | admissionWaiting
  | admissionApproved (chat : List ChatMessage)
  | admissionDenied
  | roomParticipants (parts : List (String × Participant))
  | participantWaiting (pid username peerId : String)
  | waitingRoomUpdate (ws : List WaitingEntry)
  | userJoined (pid username peerId : String)
  | participantApproved (username : String)
  | newMessage (m : ChatMessage)
  | userToggleAudio (pid peerId : String) (enabled : Bool)
  | userToggleVideo (pid peerId : String) (enabled : Bool)
  | youWereRemoved (pid : String)
  | userRemoved (pid peerId username : String)
  | participantRemoved (username : String)
  | hostTransferred (pid : String)
  | hostChanged (newHostId newHostUsername : String)
  | userLeft (pid peerId username : String)
  | participantLeft (username : String)
  | scheduledDisconnect (pid : String)
  | evictionScheduled (roomId : String)
deriving Repr, DecidableEq

/-- Room construction of `POST /api/room` (lines 27-43). -/
def mkRoom (roomId : String) (now : Nat) : Room :=
  { id := roomId
    participants := []
    waitingRoom := []
    chatMessages := []
    hostId := none
    createdAt := now
    requireApproval := true
    allowChat := true }

/-- The `POST /api/room` endpoint: install a fresh empty room. -/
def createRoom (rooms : Registry) (roomId : String) (now : Nat) : Registry :=
  aset rooms roomId (mkRoom roomId now)

/-- Duplicate-name test of the `join-room` handler (lines 127-139): an entry
with exactly this `username` exists in `waitingRoom` or in `participants`
(the source compares with `===`, i.e. case-sensitively). -/
def nameInRoom (room : Room) (username : String) : Bool :=
  room.waitingRoom.any (fun q => q.2.username = username) ||
  room.participants.any (fun q => q.2.username = username)

/-- The `join-room` handler (lines 73-174). -/
def joinRoom (rooms : Registry) (socketId roomId username peerId : String)
    (now : Nat) : Registry × List Ev :=
  match alookup rooms roomId with
  | none => (rooms, [Ev.roomError "Room does not exist"])
  | some room =>
    if username = "" ∨ peerId = "" then
      (rooms, [Ev.roomError "Username and peer ID are required"])
    else
      match room.hostId with
      | none =>
        let p : Participant :=
          { id := socketId, username := username, peerId := peerId
            socketId := socketId, joinedAt := now
            audioEnabled := true, videoEnabled := true, isHost := true }
        let room2 := { room with hostId := some socketId
                                 participants := aset room.participants socketId p }
        (aset rooms roomId room2,
         [Ev.admissionApprovedHost room2.chatMessages room2.participants,
          Ev.roomParticipants []])
      | some _ =>
        if nameInRoom room username then
          (rooms, [Ev.roomError "A user with this name is already in the meeting"])
        else
          let w : WaitingEntry :=
            { id := socketId, username := username, peerId := peerId
              socketId := socketId, requestedAt := now }
          let room2 := { room with waitingRoom := aset room.waitingRoom socketId w }
          (aset rooms roomId room2,
           [Ev.admissionWaiting] ++
           (if room2.hostId.isSome then
              [Ev.participantWaiting socketId username peerId,
               Ev.waitingRoomUpdate (room2.waitingRoom.map (fun q => q.2))]
            else []))

/-- The `approve-participant` handler (lines 177-255). -/
def approveParticipant (rooms : Registry) (socketId roomId participantId : String)
    (live : List String) (now : Nat) : Registry × List Ev :=
  match alookup rooms roomId with
  | none => (rooms, [Ev.errMsg "Room not found"])
  | some room =>
    if room.hostId ≠ some socketId then
      (rooms, [Ev.errMsg "Unauthorized: Only host can approve participants"])
    else
      match alookup room.waitingRoom participantId with
      | none => (rooms, [Ev.errMsg "Participant not found in waiting room"])
      | some w =>
        let p : Participant :=
          { id := w.id, username := w.username, peerId := w.peerId
            socketId := w.socketId, joinedAt := now
            audioEnabled := true, videoEnabled := true, isHost := false }
        let parts2 := aset room.participants participantId p
        let room2 := { room with participants := parts2
                                 waitingRoom := aerase room.waitingRoom participantId }
        let joinEvs :=
          if participantId ∈ live then
            [Ev.admissionApproved room2.chatMessages,
             Ev.roomParticipants (aerase parts2 participantId),
             Ev.userJoined participantId w.username w.peerId,
             Ev.participantApproved w.username]
          else []
        (aset rooms roomId room2,
         joinEvs ++ [Ev.waitingRoomUpdate (room2.waitingRoom.map (fun q => q.2))])

/-- The `deny-participant` handler (lines 258-302). -/
def denyParticipant (rooms : Registry) (socketId roomId participantId : String)
    (live : List String) : Registry × List Ev :=
  match alookup rooms roomId with
  | none => (rooms, [Ev.errMsg "Room not found"])
  | some room =>
    if room.hostId ≠ some socketId then
      (rooms, [Ev.errMsg "Unauthorized: Only host can deny participants"])
    else
      match alookup room.waitingRoom participantId with
      | none => (rooms, [Ev.errMsg "Participant not found in waiting room"])
      | some _ =>
        let denyEvs :=
          if participantId ∈ live then
            [Ev.admissionDenied, Ev.scheduledDisconnect participantId]
          else []
        let room2 := { room with waitingRoom := aerase room.waitingRoom participantId }
        (aset rooms roomId room2,
         denyEvs ++ [Ev.waitingRoomUpdate (room2.waitingRoom.map (fun q => q.2))])

/-- The `send-message` handler (lines 305-354). -/
def sendMessage (rooms : Registry) (socketId roomId message username msgId : String)
    (now : Nat) : Registry × List Ev :=
  match alookup rooms roomId with
  | none => (rooms, [Ev.errMsg "Room not found"])
  | some room =>
    if (alookup room.participants socketId).isNone then
      (rooms, [Ev.errMsg "You are not in this room"])
    else if strTrim message = "" then
      (rooms, [Ev.errMsg "Message cannot be empty"])
    else if 500 < strLen (strTrim message) then
      (rooms, [Ev.errMsg "Message too long"])
    else
      let m : ChatMessage :=
        { id := msgId, username := username, message := strTrim message
          timestamp := now, senderId := socketId
          isHost := decide (room.hostId = some socketId) }
      let log1 := room.chatMessages ++ [m]
      let log2 := if 100 < log1.length then takeLast log1 100 else log1
      (aset rooms roomId { room with chatMessages := log2 }, [Ev.newMessage m])

/-- The `toggle-audio` handler (lines 357-371). -/
def toggleAudio (rooms : Registry) (socketId roomId peerId : String)
    (enabled : Bool) : Registry × List Ev :=
  match alookup rooms roomId with
  | none => (rooms, [])
  | some room =>
    match alookup room.participants socketId with
    | none => (rooms, [])
    | some p =>
      let parts2 := aset room.participants socketId { p with audioEnabled := enabled }
      (aset rooms roomId { room with participants := parts2 },
       [Ev.userToggleAudio socketId peerId enabled])

/-- The `toggle-video` handler (lines 374-388). -/
def toggleVideo (rooms : Registry) (socketId roomId peerId : String)
    (enabled : Bool) : Registry × List Ev :=
  match alookup rooms roomId with
  | none => (rooms, [])
  | some room =>
    match alookup room.participants socketId with
    | none => (rooms, [])
    | some p =>
      let parts2 := aset room.participants socketId { p with videoEnabled := enabled }
      (aset rooms roomId { room with participants := parts2 },
       [Ev.userToggleVideo socketId peerId enabled])

/-- The `remove-participant` handler (lines 391-439). -/
def removeParticipant (rooms : Registry) (socketId roomId participantId peerId : String)
    (live : List String) : Registry × List Ev :=
  match alookup rooms roomId with
  | none => (rooms, [Ev.errMsg "Room not found"])
  | some room =>
    if room.hostId ≠ some socketId then
      (rooms, [Ev.errMsg "Unauthorized: Only host can remove participants"])
    else
      match alookup room.participants participantId with
      | none => (rooms, [])
      | some p =>
        let room2 := { room with participants := aerase room.participants participantId }
        (aset rooms roomId room2,
         [Ev.youWereRemoved participantId,
          Ev.userRemoved participantId peerId p.username] ++
         (if participantId ∈ live then [Ev.scheduledDisconnect participantId] else []) ++
         [Ev.participantRemoved p.username])

/-- Body of the `disconnect` handler for one room of the registry
(lines 480-576): participant removal with host succession, waiting-room
removal, and eviction scheduling for an emptied room. -/
def disconnectRoom (roomId : String) (room : Room) (socketId : String) :
    Room × List Ev :=
  let step1 : Room × List Ev :=
    match alookup room.participants socketId with
    | none => (room, [])
    | some part =>
      let hostStep : Room × List Ev :=
        if room.hostId = some socketId then
          match (akeys room.participants).filter (fun k => k ≠ socketId) with
          | [] => ({ room with hostId := none }, [])
          | newHostId :: _ =>
            match alookup room.participants newHostId with
            | none => (room, [])
            | some q =>
              ({ room with hostId := some newHostId
                           participants :=
                             aset room.participants newHostId { q with isHost := true } },
               [Ev.hostTransferred newHostId, Ev.hostChanged newHostId q.username])
        else (room, [])
      ({ hostStep.1 with participants := aerase hostStep.1.participants socketId },
       hostStep.2 ++ [Ev.userLeft socketId part.peerId part.username,
                      Ev.participantLeft part.username])
  let step2 : Room × List Ev :=
    match alookup step1.1.waitingRoom socketId with
    | none => (step1.1, [])
    | some _ =>
      let roomW := { step1.1 with waitingRoom := aerase step1.1.waitingRoom socketId }
      (roomW,
       if roomW.hostId.isSome then
         [Ev.waitingRoomUpdate (roomW.waitingRoom.map (fun q => q.2))]
       else [])
  let evs3 :=
    if step2.1.participants.isEmpty ∧ step2.1.waitingRoom.isEmpty then
      [Ev.evictionScheduled roomId]
    else []
  (step2.1, step1.2 ++ step2.2 ++ evs3)

/-- The `disconnect` handler (lines 476-578): iterate `disconnectRoom` over
every room of the registry, in registry order. -/
def disconnectAll : Registry → String → Registry × List Ev
  | [], _ => ([], [])
  | (rid, r) :: rest, socketId =>
    let hd := disconnectRoom rid r socketId
    let tl := disconnectAll rest socketId
    ((rid, hd.1) :: tl.1, hd.2 ++ tl.2)

/-- Body of the scheduled eviction timer (lines 566-575): when it fires,
re-check that the room still exists and is still empty before deleting it. -/
def fireEviction (rooms : Registry) (roomId : String) : Registry :=
  match alookup rooms roomId with
  | none => rooms
  | some room =>
    if room.participants.isEmpty ∧ room.waitingRoom.isEmpty then
      aerase rooms roomId
    else rooms

/-- One externally triggered operation on the registry: every socket event
handler of `src/server.js` plus room creation and eviction-timer firing. -/
inductive Op where
  | create (roomId : String) (now : Nat)
  | join (socketId roomId username peerId : String) (now : Nat)
  | approve (socketId roomId participantId : String) (live : List String) (now : Nat)
  | deny (socketId roomId participantId : String) (live : List String)
  | send (socketId roomId message username msgId : String) (now : Nat)
  | audio (socketId roomId peerId : String) (enabled : Bool)
  | video (socketId roomId peerId : String) (enabled : Bool)
  | removeP (socketId roomId participantId peerId : String) (live : List String)
  | disc (socketId : String)
  | evict (roomId : String)
deriving Repr, DecidableEq

/-- Dispatch one operation to its handler. -/
def applyOp (rooms : Registry) : Op → Registry × List Ev
  | .create rid now => (createRoom rooms rid now, [])
  | .join s rid u p now => joinRoom rooms s rid u p now
  | .approve s rid pid live now => approveParticipant rooms s rid pid live now
  | .deny s rid pid live => denyParticipant rooms s rid pid live
  | .send s rid msg u mid now => sendMessage rooms s rid msg u mid now
  | .audio s rid p e => toggleAudio rooms s rid p e
  | .video s rid p e => toggleVideo rooms s rid p e
  | .removeP s rid pid p live => removeParticipant rooms s rid pid p live
  | .disc s => disconnectAll rooms s
  | .evict rid => (fireEviction rooms rid, [])

/-- Run a sequence of operations from a starting registry. -/
def runOps (rooms : Registry) (ops : List Op) : Registry :=
  ops.foldl (fun st op => (applyOp st op).1) rooms

/-- Host invariant for one room: `hostId` is absent or a key of
`participants`. -/
def hostOk (room : Room) : Bool :=
  match room.hostId with
  | none => true
  | some h => (alookup room.participants h).isSome

/-- Host invariant over the whole registry. -/
def hostOkAll (rooms : Registry) : Bool := rooms.all (fun q => hostOk q.2)

/-- Disjointness invariant for one room: no key of `participants` is also a
key of `waitingRoom`. -/
def disjointOk (room : Room) : Bool :=
  room.participants.all (fun q => (alookup room.waitingRoom q.1).isNone)

/-- Disjointness invariant over the whole registry. -/
def disjointOkAll (rooms : Registry) : Bool := rooms.all (fun q => disjointOk q.2)

/-- Side condition under which an operation preserves the host invariant: a
`remove-participant` request must not target the room's current host (the
handler does not guard against the host removing themselves). -/
def opSafe (rooms : Registry) : Op → Prop
  | .removeP _ rid pid _ _ =>
      ∀ room : Room, alookup rooms rid = some room → room.hostId ≠ some pid
  | _ => True

/-- Side condition under which an operation preserves participant/waiting
disjointness: a `join-room` request must come from a connection that is not
already present in the target room's `participants` or `waitingRoom` (the
handler does not guard against re-joins by an already-admitted or
already-waiting connection). -/
def joinFresh (rooms : Registry) : Op → Prop
  | .join s rid _ _ _ =>
      ∀ room : Room, alookup rooms rid = some room →
        alookup room.participants s = none ∧ alookup room.waitingRoom s = none
  | _ => True

/-- Concrete participant used to instantiate theorems on explicit inputs. -/
def pHostAnn : Participant :=
  { id := "h", username := "ann", peerId := "p1", socketId := "h", joinedAt := 1
    audioEnabled := true, videoEnabled := true, isHost := true }

/-- Concrete waiting entry used to instantiate theorems on explicit inputs. -/
def wAnn : WaitingEntry :=
  { id := "a", username := "ann", peerId := "p2", socketId := "a", requestedAt := 1 }

/-- Concrete room hosted by connection `h` (display name `ann`). -/
def roomHosted : Room :=
  { id := "r", participants := [("h", pHostAnn)], waitingRoom := []
    chatMessages := [], hostId := some "h", createdAt := 0
    requireApproval := true, allowChat := true }

/-- Concrete hostless room whose waiting room already holds the name `ann`. -/
def roomHostless : Room :=
  { id := "r", participants := [], waitingRoom := [("a", wAnn)]
    chatMessages := [], hostId := none, createdAt := 0
    requireApproval := true, allowChat := true }

/-- Concrete participant `alice` on connection `a` (host of `roomTwo`). -/
def pAlice : Participant :=
  { id := "a", username := "alice", peerId := "pa", socketId := "a", joinedAt := 1
    audioEnabled := true, videoEnabled := true, isHost := true }

/-- Concrete participant `bob` on connection `b`. -/
def pBob : Participant :=
  { id := "b", username := "bob", peerId := "pb", socketId := "b", joinedAt := 2
    audioEnabled := true, videoEnabled := true, isHost := false }

/-- Concrete room with host `alice` and second participant `bob`. -/
def roomTwo : Room :=
  { id := "r", participants := [("a", pAlice), ("b", pBob)], waitingRoom := []
    chatMessages := [], hostId := some "a", createdAt := 0
    requireApproval := true, allowChat := true }

/-- Concrete chat message used to fill a log to its bound. -/
def m0 : ChatMessage :=
  { id := "m0", username := "ann", message := "x", timestamp := 0
    senderId := "h", isHost := true }

/-- Concrete room hosted by `h` whose chat log already holds 100 messages. -/
def roomChat100 : Room := { roomHosted with chatMessages := List.replicate 100 m0 }

/-- Concrete chat message produced by the send in the C7 witness. -/
def mNew : ChatMessage :=
  { id := "m1", username := "u2", message := "hi", timestamp := 7
    senderId := "h", isHost := true }

/-- Concrete room hosted by `h` with `ann` waiting on connection `a`. -/
def roomWaiting : Room := { roomHosted with waitingRoom := [("a", wAnn)] }

theorem alookup_cons (q : String × α) (l : List (String × α)) (k : String) :
    alookup (q :: l) k = if q.1 = k then some q.2 else alookup l k := rfl

theorem alookup_append_of_none (l1 l2 : List (String × α)) (k : String)
    (h : alookup l1 k = none) : alookup (l1 ++ l2) k = alookup l2 k := by
  induction l1 with
  | nil => simp
  | cons q tl ih =>
    rw [alookup_cons] at h
    by_cases hk : q.1 = k
    · simp [hk] at h
    · rw [List.cons_append, alookup_cons, if_neg hk]
      rw [if_neg hk] at h
      exact ih h

theorem alookup_map_update_self (l : List (String × α)) (k : String) (v : α)
    (h : (alookup l k).isSome = true) :
    alookup (l.map (fun q => if q.1 = k then (k, v) else q)) k = some v := by
  induction l with
  | nil => simp [alookup] at h
  | cons q tl ih =>
    rw [alookup_cons] at h
    by_cases hk : q.1 = k
    · simp [alookup_cons, hk]
    · rw [if_neg hk] at h
      simp only [List.map_cons, if_neg hk, alookup_cons]
      exact ih h

theorem alookup_map_update_ne (l : List (String × α)) (k k2 : String) (v : α)
    (h : k2 ≠ k) :
    alookup (l.map (fun q => if q.1 = k then (k, v) else q)) k2 = alookup l k2 := by
  induction l with
  | nil => rfl
  | cons q tl ih =>
    simp only [List.map_cons, alookup_cons]
    by_cases hk : q.1 = k
    · rw [if_pos hk]
      have h1 : ¬((k, v).1 = k2) := fun hh => h hh.symm
      have h2 : ¬(q.1 = k2) := by rw [hk]; exact fun hh => h hh.symm
      rw [if_neg h1, if_neg h2, ih]
    · rw [if_neg hk, ih]

theorem alookup_append_single_ne (l : List (String × α)) (k k2 : String) (v : α)
    (h : k2 ≠ k) : alookup (l ++ [(k, v)]) k2 = alookup l k2 := by
  induction l with
  | nil =>
    rw [List.nil_append, alookup_cons, if_neg (fun hh => h hh.symm)]
  | cons q tl ih =>
    rw [List.cons_append, alookup_cons, alookup_cons]
    by_cases hq : q.1 = k2
    · rw [if_pos hq, if_pos hq]
    · rw [if_neg hq, if_neg hq]
      exact ih

theorem alookup_aset_self (l : List (String × α)) (k : String) (v : α) :
    alookup (aset l k v) k = some v := by
  unfold aset
  split
  · rename_i h
    exact alookup_map_update_self _ _ _ h
  · rename_i h
    have hn : alookup l k = none := by
      cases hl : alookup l k
      · rfl
      · rw [hl] at h
        simp at h
    rw [alookup_append_of_none _ _ _ hn, alookup_cons]
    simp

theorem alookup_aset_ne (l : List (String × α)) (k k2 : String) (v : α)
    (h : k2 ≠ k) : alookup (aset l k v) k2 = alookup l k2 := by
  unfold aset
  split
  · exact alookup_map_update_ne _ _ _ _ h
  · exact alookup_append_single_ne _ _ _ _ h

theorem aerase_cons (q : String × α) (l : List (String × α)) (k : String) :
    aerase (q :: l) k = if q.1 = k then aerase l k else q :: aerase l k := by
  by_cases hk : q.1 = k
  · simp [aerase, List.filter_cons, hk]
  · simp [aerase, List.filter_cons, hk]

theorem alookup_aerase (l : List (String × α)) (k k2 : String) :
    alookup (aerase l k) k2 = if k2 = k then none else alookup l k2 := by
  by_cases hk2 : k2 = k
  · subst hk2
    rw [if_pos rfl]
    induction l with
    | nil => rfl
    | cons q tl ih =>
      rw [aerase_cons]
      by_cases hk : q.1 = k2
      · rw [if_pos hk]
        exact ih
      · rw [if_neg hk, alookup_cons, if_neg hk]
        exact ih
  · rw [if_neg hk2]
    induction l with
    | nil => rfl
    | cons q tl ih =>
      rw [aerase_cons]
      by_cases hk : q.1 = k
      · have h2 : ¬(q.1 = k2) := by rw [hk]; exact fun hh => hk2 hh.symm
        rw [if_pos hk, alookup_cons, if_neg h2]
        exact ih
      · rw [if_neg hk, alookup_cons, alookup_cons]
        by_cases hq : q.1 = k2
        · rw [if_pos hq, if_pos hq]
        · rw [if_neg hq, if_neg hq]
          exact ih

theorem isSome_alookup_aset (l : List (String × α)) (k k2 : String) (v : α)
    (h : (alookup l k2).isSome = true) : (alookup (aset l k v) k2).isSome = true := by
  by_cases hk : k2 = k
  · subst hk
    rw [alookup_aset_self]
    rfl
  · rw [alookup_aset_ne _ _ _ _ hk]
    exact h

theorem alookup_aset_cases (l : List (String × α)) (k k2 : String) (v : α)
    (h : (alookup (aset l k v) k2).isSome = true) :
    k2 = k ∨ (alookup l k2).isSome = true := by
  by_cases hk : k2 = k
  · exact Or.inl hk
  · right
    rwa [alookup_aset_ne _ _ _ _ hk] at h

theorem mem_akeys_isSome (l : List (String × α)) (k : String)
    (h : k ∈ akeys l) : (alookup l k).isSome = true := by
  induction l with
  | nil => simp [akeys] at h
  | cons q tl ih =>
    rw [akeys, List.map_cons, List.mem_cons] at h
    rw [alookup_cons]
    by_cases hk : q.1 = k
    · rw [if_pos hk]
      rfl
    · rw [if_neg hk]
      exact ih (h.resolve_left (fun hh => hk hh.symm))

theorem all_of_alookup {f : α → Bool} {l : List (String × α)} {k : String} {v : α}
    (h : l.all (fun q => f q.2) = true) (hk : alookup l k = some v) : f v = true := by
  induction l with
  | nil => simp [alookup] at hk
  | cons q tl ih =>
    rw [List.all_cons, Bool.and_eq_true] at h
    rw [alookup_cons] at hk
    by_cases hq : q.1 = k
    · rw [if_pos hq] at hk
      cases hk
      exact h.1
    · rw [if_neg hq] at hk
      exact ih h.2 hk

theorem all_aset {f : α → Bool} {l : List (String × α)} {k : String} {v : α}
    (h : l.all (fun q => f q.2) = true) (hv : f v = true) :
    (aset l k v).all (fun q => f q.2) = true := by
  unfold aset
  split
  · rw [List.all_eq_true] at h ⊢
    intro q hq
    rw [List.mem_map] at hq
    obtain ⟨q0, hq0, hq0e⟩ := hq
    by_cases hk : q0.1 = k
    · rw [if_pos hk] at hq0e
      rw [← hq0e]
      exact hv
    · rw [if_neg hk] at hq0e
      rw [← hq0e]
      exact h q0 hq0
  · rw [List.all_append, Bool.and_eq_true]
    exact ⟨h, by simp [hv]⟩

theorem all_aerase {f : α → Bool} {l : List (String × α)} {k : String}
    (h : l.all (fun q => f q.2) = true) :
    (aerase l k).all (fun q => f q.2) = true := by
  rw [List.all_eq_true] at h ⊢
  intro q hq
  exact h q (List.mem_of_mem_filter hq)

theorem alookup_mem (l : List (String × α)) (k : String) (v : α)
    (h : alookup l k = some v) : (k, v) ∈ l := by
  induction l with
  | nil => simp [alookup] at h
  | cons q tl ih =>
    rw [alookup_cons] at h
    by_cases hk : q.1 = k
    · rw [if_pos hk] at h
      cases h
      rw [← hk]
      exact List.mem_cons_self _ _
    · rw [if_neg hk] at h
      right
      exact ih h

theorem mem_aset (l : List (String × α)) (k : String) (v : α) (q : String × α)
    (h : q ∈ aset l k v) : q = (k, v) ∨ q ∈ l := by
  unfold aset at h
  split at h
  · rw [List.mem_map] at h
    obtain ⟨q0, hq0, he⟩ := h
    by_cases hk : q0.1 = k
    · rw [if_pos hk] at he
      exact Or.inl he.symm
    · rw [if_neg hk] at he
      right
      rw [← he]
      exact hq0
  · rw [List.mem_append] at h
    cases h with
    | inl h2 => exact Or.inr h2
    | inr h2 =>
      left
      simpa using h2

theorem mem_key_isSome (l : List (String × α)) (q : String × α)
    (h : q ∈ l) : (alookup l q.1).isSome = true := by
  apply mem_akeys_isSome
  rw [akeys, List.mem_map]
  exact ⟨q, h, rfl⟩

theorem hostOk_eq_some (room : Room) (hid : String) (hh : room.hostId = some hid) :
    hostOk room = (alookup room.participants hid).isSome := by
  unfold hostOk
  rw [hh]

theorem hostOk_eq_none (room : Room) (hh : room.hostId = none) :
    hostOk room = true := by
  unfold hostOk
  rw [hh]

theorem hostOk_createRoom (roomId : String) (now : Nat) :
    hostOk (mkRoom roomId now) = true := rfl

theorem hostOkAll_createRoom (rooms : Registry) (roomId : String) (now : Nat)
    (h : hostOkAll rooms = true) : hostOkAll (createRoom rooms roomId now) = true :=
  all_aset h (hostOk_createRoom roomId now)

theorem hostOkAll_joinRoom (rooms : Registry) (sid rid u p : String) (now : Nat)
    (h : hostOkAll rooms = true) :
    hostOkAll (joinRoom rooms sid rid u p now).1 = true := by
  unfold joinRoom
  cases hr : alookup rooms rid with
  | none => exact h
  | some room =>
    dsimp only
    split
    · exact h
    · cases hh : room.hostId with
      | none =>
        dsimp only
        apply all_aset h
        exact (hostOk_eq_some _ sid rfl).trans (by rw [alookup_aset_self]; rfl)
      | some hid =>
        dsimp only
        split
        · exact h
        · dsimp only
          apply all_aset h
          have hok := all_of_alookup h hr
          rw [hostOk_eq_some room hid hh] at hok
          exact (hostOk_eq_some _ hid rfl).trans hok

theorem hostOkAll_approve (rooms : Registry) (sid rid pid : String)
    (live : List String) (now : Nat) (h : hostOkAll rooms = true) :
    hostOkAll (approveParticipant rooms sid rid pid live now).1 = true := by
  unfold approveParticipant
  cases hr : alookup rooms rid with
  | none => exact h
  | some room =>
    dsimp only
    split
    · exact h
    · rename_i hauth
      cases hw : alookup room.waitingRoom pid with
      | none => exact h
      | some w =>
        dsimp only
        apply all_aset h
        rw [Ne, not_not] at hauth
        have hok := all_of_alookup h hr
        rw [hostOk_eq_some room sid hauth] at hok
        refine Eq.trans (hostOk_eq_some _ sid ?_) (isSome_alookup_aset _ _ _ _ hok)
        exact hauth

theorem hostOkAll_deny (rooms : Registry) (sid rid pid : String)
    (live : List String) (h : hostOkAll rooms = true) :
    hostOkAll (denyParticipant rooms sid rid pid live).1 = true := by
  unfold denyParticipant
  cases hr : alookup rooms rid with
  | none => exact h
  | some room =>
    dsimp only
    split
    · exact h
    · cases hw : alookup room.waitingRoom pid with
      | none => exact h
      | some w =>
        dsimp only
        apply all_aset h
        have hok := all_of_alookup h hr
        cases hh : room.hostId with
        | none => exact hostOk_eq_none _ rfl
        | some hid =>
          rw [hostOk_eq_some room hid hh] at hok
          exact (hostOk_eq_some _ hid rfl).trans hok

theorem hostOkAll_send (rooms : Registry) (sid rid msg u mid : String) (now : Nat)
    (h : hostOkAll rooms = true) :
    hostOkAll (sendMessage rooms sid rid msg u mid now).1 = true := by
  unfold sendMessage
  cases hr : alookup rooms rid with
  | none => exact h
  | some room =>
    dsimp only
    split
    · exact h
    · split
      · exact h
      · split
        · exact h
        · dsimp only
          apply all_aset h
          have hok := all_of_alookup h hr
          cases hh : room.hostId with
          | none => exact hostOk_eq_none _ rfl
          | some hid =>
            rw [hostOk_eq_some room hid hh] at hok
            exact (hostOk_eq_some _ hid rfl).trans hok

theorem hostOkAll_audio (rooms : Registry) (sid rid p : String) (e : Bool)
    (h : hostOkAll rooms = true) :
    hostOkAll (toggleAudio rooms sid rid p e).1 = true := by
  unfold toggleAudio
  cases hr : alookup rooms rid with
  | none => exact h
  | some room =>
    dsimp only
    cases hp : alookup room.participants sid with
    | none => exact h
    | some part =>
      dsimp only
      apply all_aset h
      have hok := all_of_alookup h hr
      cases hh : room.hostId with
      | none => exact hostOk_eq_none _ rfl
      | some hid =>
        rw [hostOk_eq_some room hid hh] at hok
        exact (hostOk_eq_some _ hid rfl).trans (isSome_alookup_aset _ _ _ _ hok)

theorem hostOkAll_video (rooms : Registry) (sid rid p : String) (e : Bool)
    (h : hostOkAll rooms = true) :
    hostOkAll (toggleVideo rooms sid rid p e).1 = true := by
  unfold toggleVideo
  cases hr : alookup rooms rid with
  | none => exact h
  | some room =>
    dsimp only
    cases hp : alookup room.participants sid with
    | none => exact h
    | some part =>
      dsimp only
      apply all_aset h
      have hok := all_of_alookup h hr
      cases hh : room.hostId with
      | none => exact hostOk_eq_none _ rfl
      | some hid =>
        rw [hostOk_eq_some room hid hh] at hok
        exact (hostOk_eq_some _ hid rfl).trans (isSome_alookup_aset _ _ _ _ hok)

theorem hostOkAll_removeParticipant (rooms : Registry) (sid rid pid p : String)
    (live : List String) (h : hostOkAll rooms = true)
    (hcond : ∀ room : Room, alookup rooms rid = some room → room.hostId ≠ some pid) :
    hostOkAll (removeParticipant rooms sid rid pid p live).1 = true := by
  unfold removeParticipant
  cases hr : alookup rooms rid with
  | none => exact h
  | some room =>
    dsimp only
    split
    · exact h
    · cases hp : alookup room.participants pid with
      | none => exact h
      | some part =>
        dsimp only
        apply all_aset h
        have hok := all_of_alookup h hr
        cases hh : room.hostId with
        | none => exact hostOk_eq_none _ rfl
        | some hid =>
          rw [hostOk_eq_some room hid hh] at hok
          have hne : hid ≠ pid := by
            intro hEq
            exact hcond room hr (by rw [hh, hEq])
          refine (hostOk_eq_some _ hid rfl).trans ?_
          rw [alookup_aerase, if_neg hne]
          exact hok

theorem hostOkAll_evict (rooms : Registry) (rid : String)
    (h : hostOkAll rooms = true) : hostOkAll (fireEviction rooms rid) = true := by
  unfold fireEviction
  cases hr : alookup rooms rid with
  | none => exact h
  | some room =>
    dsimp only
    split
    · exact all_aerase h
    · exact h

theorem hostOk_disconnectRoom (rid : String) (room : Room) (sid : String)
    (h : hostOk room = true) : hostOk (disconnectRoom rid room sid).1 = true := by
  unfold disconnectRoom
  dsimp only
  cases hp : alookup room.participants sid with
  | none =>
    dsimp only
    cases hw : alookup room.waitingRoom sid with
    | none =>
      dsimp only
      exact h
    | some w =>
      dsimp only
      cases hh : room.hostId with
      | none => exact hostOk_eq_none _ rfl
      | some hid =>
        rw [hostOk_eq_some room hid hh] at h
        exact (hostOk_eq_some _ hid rfl).trans h
  | some part =>
    dsimp only
    by_cases hhost : room.hostId = some sid
    · rw [if_pos hhost]
      cases hfil : (akeys room.participants).filter (fun k => k ≠ sid) with
      | nil =>
        dsimp only
        cases hw : alookup room.waitingRoom sid with
        | none => exact hostOk_eq_none _ rfl
        | some w => exact hostOk_eq_none _ rfl
      | cons nh rest =>
        dsimp only
        have hmem : nh ∈ (akeys room.participants).filter (fun k => k ≠ sid) := by
          rw [hfil]
          exact List.mem_cons_self _ _
        rw [List.mem_filter] at hmem
        have hnhkey := mem_akeys_isSome _ _ hmem.1
        have hnhsid : nh ≠ sid := by simpa using hmem.2
        cases hnh : alookup room.participants nh with
        | none =>
          rw [hnh] at hnhkey
          simp at hnhkey
        | some q =>
          dsimp only
          have hlook : (alookup
              (aerase (aset room.participants nh { q with isHost := true }) sid) nh).isSome
              = true := by
            rw [alookup_aerase, if_neg hnhsid, alookup_aset_self]
            rfl
          cases hw : alookup room.waitingRoom sid with
          | none => exact (hostOk_eq_some _ nh rfl).trans hlook
          | some w => exact (hostOk_eq_some _ nh rfl).trans hlook
    · rw [if_neg hhost]
      dsimp only
      have hstep : ∀ hid, room.hostId = some hid →
          (alookup (aerase room.participants sid) hid).isSome = true := by
        intro hid hh
        have hne : hid ≠ sid := fun hEq => hhost (by rw [hh, hEq])
        rw [alookup_aerase, if_neg hne]
        rw [hostOk_eq_some room hid hh] at h
        exact h
      cases hh : room.hostId with
      | none =>
        cases hw : alookup room.waitingRoom sid with
        | none => exact hostOk_eq_none _ rfl
        | some w => exact hostOk_eq_none _ rfl
      | some hid =>
        cases hw : alookup room.waitingRoom sid with
        | none => exact (hostOk_eq_some _ hid rfl).trans (hstep hid hh)
        | some w => exact (hostOk_eq_some _ hid rfl).trans (hstep hid hh)

theorem hostOkAll_disconnectAll (rooms : Registry) (sid : String)
    (h : hostOkAll rooms = true) : hostOkAll (disconnectAll rooms sid).1 = true := by
  induction rooms with
  | nil => rfl
  | cons q tl ih =>
    unfold hostOkAll at h
    rw [List.all_cons, Bool.and_eq_true] at h
    obtain ⟨h1, h2⟩ := h
    obtain ⟨rid, r⟩ := q
    simp only [disconnectAll]
    unfold hostOkAll
    rw [List.all_cons, Bool.and_eq_true]
    exact ⟨hostOk_disconnectRoom rid r sid h1, ih h2⟩

theorem disjointOk_intro (room : Room)
    (h : ∀ q ∈ room.participants, alookup room.waitingRoom q.1 = none) :
    disjointOk room = true := by
  unfold disjointOk
  rw [List.all_eq_true]
  intro q hq
  rw [h q hq]
  rfl

theorem disjointOk_elim (room : Room) (h : disjointOk room = true) :
    ∀ q ∈ room.participants, alookup room.waitingRoom q.1 = none := by
  unfold disjointOk at h
  rw [List.all_eq_true] at h
  intro q hq
  have h2 := h q hq
  rwa [Option.isNone_iff_eq_none] at h2

theorem disjointOk_createRoom (roomId : String) (now : Nat) :
    disjointOk (mkRoom roomId now) = true := rfl

theorem disjointOkAll_createRoom (rooms : Registry) (roomId : String) (now : Nat)
    (h : disjointOkAll rooms = true) :
    disjointOkAll (createRoom rooms roomId now) = true :=
  all_aset h (disjointOk_createRoom roomId now)

theorem disjointOkAll_joinRoom (rooms : Registry) (sid rid u p : String) (now : Nat)
    (h : disjointOkAll rooms = true)
    (hfresh : ∀ room : Room, alookup rooms rid = some room →
       alookup room.participants sid = none ∧ alookup room.waitingRoom sid = none) :
    disjointOkAll (joinRoom rooms sid rid u p now).1 = true := by
  unfold joinRoom
  cases hr : alookup rooms rid with
  | none => exact h
  | some room =>
    dsimp only
    split
    · exact h
    · cases hh : room.hostId with
      | none =>
        dsimp only
        apply all_aset h
        apply disjointOk_intro
        intro q hq
        cases mem_aset _ _ _ _ hq with
        | inl he =>
          rw [he]
          exact (hfresh room hr).2
        | inr hmem => exact disjointOk_elim room (all_of_alookup h hr) q hmem
      | some hid =>
        dsimp only
        split
        · exact h
        · dsimp only
          apply all_aset h
          apply disjointOk_intro
          intro q hq
          have hq1 : q.1 ≠ sid := by
            intro hEq
            have hs := mem_key_isSome _ _ hq
            rw [hEq, (hfresh room hr).1] at hs
            simp at hs
          rw [alookup_aset_ne _ _ _ _ hq1]
          exact disjointOk_elim room (all_of_alookup h hr) q hq

theorem disjointOkAll_approve (rooms : Registry) (sid rid pid : String)
    (live : List String) (now : Nat) (h : disjointOkAll rooms = true) :
    disjointOkAll (approveParticipant rooms sid rid pid live now).1 = true := by
  unfold approveParticipant
  cases hr : alookup rooms rid with
  | none => exact h
  | some room =>
    dsimp only
    split
    · exact h
    · cases hw : alookup room.waitingRoom pid with
      | none => exact h
      | some w =>
        dsimp only
        apply all_aset h
        apply disjointOk_intro
        intro q hq
        rw [alookup_aerase]
        by_cases hq1 : q.1 = pid
        · rw [if_pos hq1]
        · rw [if_neg hq1]
          cases mem_aset _ _ _ _ hq with
          | inl he =>
            exfalso
            apply hq1
            rw [he]
          | inr hmem => exact disjointOk_elim room (all_of_alookup h hr) q hmem

theorem disjointOkAll_deny (rooms : Registry) (sid rid pid : String)
    (live : List String) (h : disjointOkAll rooms = true) :
    disjointOkAll (denyParticipant rooms sid rid pid live).1 = true := by
  unfold denyParticipant
  cases hr : alookup rooms rid with
  | none => exact h
  | some room =>
    dsimp only
    split
    · exact h
    · cases hw : alookup room.waitingRoom pid with
      | none => exact h
      | some w =>
        dsimp only
        apply all_aset h
        apply disjointOk_intro
        intro q hq
        rw [alookup_aerase]
        by_cases hq1 : q.1 = pid
        · rw [if_pos hq1]
        · rw [if_neg hq1]
          exact disjointOk_elim room (all_of_alookup h hr) q hq

theorem disjointOkAll_send (rooms : Registry) (sid rid msg u mid : String) (now : Nat)
    (h : disjointOkAll rooms = true) :
    disjointOkAll (sendMessage rooms sid rid msg u mid now).1 = true := by
  unfold sendMessage
  cases hr : alookup rooms rid with
  | none => exact h
  | some room =>
    dsimp only
    split
    · exact h
    · split
      · exact h
      · split
        · exact h
        · dsimp only
          apply all_aset h
          apply disjointOk_intro
          intro q hq
          exact disjointOk_elim room (all_of_alookup h hr) q hq

theorem disjointOkAll_audio (rooms : Registry) (sid rid p : String) (e : Bool)
    (h : disjointOkAll rooms = true) :
    disjointOkAll (toggleAudio rooms sid rid p e).1 = true := by
  unfold toggleAudio
  cases hr : alookup rooms rid with
  | none => exact h
  | some room =>
    dsimp only
    cases hp : alookup room.participants sid with
    | none => exact h
    | some part =>
      dsimp only
      apply all_aset h
      apply disjointOk_intro
      intro q hq
      cases mem_aset _ _ _ _ hq with
      | inl he =>
        rw [he]
        exact disjointOk_elim room (all_of_alookup h hr) (sid, part) (alookup_mem _ _ _ hp)
      | inr hmem => exact disjointOk_elim room (all_of_alookup h hr) q hmem

theorem disjointOkAll_video (rooms : Registry) (sid rid p : String) (e : Bool)
    (h : disjointOkAll rooms = true) :
    disjointOkAll (toggleVideo rooms sid rid p e).1 = true := by
  unfold toggleVideo
  cases hr : alookup rooms rid with
  | none => exact h
  | some room =>
    dsimp only
    cases hp : alookup room.participants sid with
    | none => exact h
    | some part =>
      dsimp only
      apply all_aset h
      apply disjointOk_intro
      intro q hq
      cases mem_aset _ _ _ _ hq with
      | inl he =>
        rw [he]
        exact disjointOk_elim room (all_of_alookup h hr) (sid, part) (alookup_mem _ _ _ hp)
      | inr hmem => exact disjointOk_elim room (all_of_alookup h hr) q hmem

theorem disjointOkAll_removeParticipant (rooms : Registry) (sid rid pid p : String)
    (live : List String) (h : disjointOkAll rooms = true) :
    disjointOkAll (removeParticipant rooms sid rid pid p live).1 = true := by
  unfold removeParticipant
  cases hr : alookup rooms rid with
  | none => exact h
  | some room =>
    dsimp only
    split
    · exact h
    · cases hp : alookup room.participants pid with
      | none => exact h
      | some part =>
        dsimp only
        apply all_aset h
        apply disjointOk_intro
        intro q hq
        exact disjointOk_elim room (all_of_alookup h hr) q (List.mem_of_mem_filter hq)

theorem disjointOkAll_evict (rooms : Registry) (rid : String)
    (h : disjointOkAll rooms = true) : disjointOkAll (fireEviction rooms rid) = true := by
  unfold fireEviction
  cases hr : alookup rooms rid with
  | none => exact h
  | some room =>
    dsimp only
    split
    · exact all_aerase h
    · exact h

theorem disjointOk_disconnectRoom (rid : String) (room : Room) (sid : String)
    (h : disjointOk room = true) : disjointOk (disconnectRoom rid room sid).1 = true := by
  unfold disconnectRoom
  dsimp only
  cases hp : alookup room.participants sid with
  | none =>
    dsimp only
    cases hw : alookup room.waitingRoom sid with
    | none => exact h
    | some w =>
      dsimp only
      apply disjointOk_intro
      intro q hq
      rw [alookup_aerase]
      by_cases hq1 : q.1 = sid
      · rw [if_pos hq1]
      · rw [if_neg hq1]
        exact disjointOk_elim room h q hq
  | some part =>
    dsimp only
    by_cases hhost : room.hostId = some sid
    · rw [if_pos hhost]
      cases hfil : (akeys room.participants).filter (fun k => k ≠ sid) with
      | nil =>
        dsimp only
        cases hw : alookup room.waitingRoom sid with
        | none =>
          apply disjointOk_intro
          intro q hq
          exact disjointOk_elim room h q (List.mem_of_mem_filter hq)
        | some w =>
          apply disjointOk_intro
          intro q hq
          rw [alookup_aerase]
          by_cases hq1 : q.1 = sid
          · rw [if_pos hq1]
          · rw [if_neg hq1]
            exact disjointOk_elim room h q (List.mem_of_mem_filter hq)
      | cons nh rest =>
        dsimp only
        cases hnh : alookup room.participants nh with
        | none =>
          dsimp only
          cases hw : alookup room.waitingRoom sid with
          | none =>
            apply disjointOk_intro
            intro q hq
            exact disjointOk_elim room h q (List.mem_of_mem_filter hq)
          | some w =>
            apply disjointOk_intro
            intro q hq
            rw [alookup_aerase]
            by_cases hq1 : q.1 = sid
            · rw [if_pos hq1]
            · rw [if_neg hq1]
              exact disjointOk_elim room h q (List.mem_of_mem_filter hq)
        | some q0 =>
          dsimp only
          have hkey : ∀ q : String × Participant,
              q ∈ aerase (aset room.participants nh { q0 with isHost := true }) sid →
              alookup room.waitingRoom q.1 = none := by
            intro q hq
            have hq2 := List.mem_of_mem_filter hq
            cases mem_aset _ _ _ _ hq2 with
            | inl he =>
              rw [he]
              exact disjointOk_elim room h (nh, q0) (alookup_mem _ _ _ hnh)
            | inr hmem => exact disjointOk_elim room h q hmem
          cases hw : alookup room.waitingRoom sid with
          | none =>
            apply disjointOk_intro
            intro q hq
            exact hkey q hq
          | some w =>
            apply disjointOk_intro
            intro q hq
            rw [alookup_aerase]
            by_cases hq1 : q.1 = sid
            · rw [if_pos hq1]
            · rw [if_neg hq1]
              exact hkey q hq
    · rw [if_neg hhost]
      dsimp only
      cases hw : alookup room.waitingRoom sid with
      | none =>
        apply disjointOk_intro
        intro q hq
        exact disjointOk_elim room h q (List.mem_of_mem_filter hq)
      | some w =>
        apply disjointOk_intro
        intro q hq
        rw [alookup_aerase]
        by_cases hq1 : q.1 = sid
        · rw [if_pos hq1]
        · rw [if_neg hq1]
          exact disjointOk_elim room h q (List.mem_of_mem_filter hq)

theorem disjointOkAll_disconnectAll (rooms : Registry) (sid : String)
    (h : disjointOkAll rooms = true) :
    disjointOkAll (disconnectAll rooms sid).1 = true := by
  induction rooms with
  | nil => rfl
  | cons q tl ih =>
    unfold disjointOkAll at h
    rw [List.all_cons, Bool.and_eq_true] at h
    obtain ⟨h1, h2⟩ := h
    obtain ⟨rid, r⟩ := q
    simp only [disconnectAll]
    unfold disjointOkAll
    rw [List.all_cons, Bool.and_eq_true]
    exact ⟨disjointOk_disconnectRoom rid r sid h1, ih h2⟩

/-- C1 (amended): after every operation (room creation, join, approve, deny,
chat send, media toggle, participant removal, disconnect, eviction firing),
every room's `hostId` is either `none` or a key of that room's
`participants` — provided a `remove-participant` request never targets the
current host.  (The unamended claim is refuted by
`C1_host_invariant_counterexample`: the handler lets the host remove
themselves, leaving `hostId` pointing at a deleted participant.) -/
theorem C1_host_invariant_preserved (rooms : Registry) (op : Op)
    (h : hostOkAll rooms = true) (hsafe : opSafe rooms op) :
    hostOkAll (applyOp rooms op).1 = true := by
  cases op with
  | create rid now => exact hostOkAll_createRoom rooms rid now h
  | join s rid u p now => exact hostOkAll_joinRoom rooms s rid u p now h
  | approve s rid pid live now => exact hostOkAll_approve rooms s rid pid live now h
  | deny s rid pid live => exact hostOkAll_deny rooms s rid pid live h
  | send s rid msg u mid now => exact hostOkAll_send rooms s rid msg u mid now h
  | audio s rid p e => exact hostOkAll_audio rooms s rid p e h
  | video s rid p e => exact hostOkAll_video rooms s rid p e h
  | removeP s rid pid p live =>
    exact hostOkAll_removeParticipant rooms s rid pid p live h hsafe
  | disc s => exact hostOkAll_disconnectAll rooms s h
  | evict rid => exact hostOkAll_evict rooms rid h

/-- Witness for C1: a concrete application of the amended invariant theorem
(a join into a fresh room preserves the host invariant). -/
theorem C1_host_invariant_witness :
    hostOkAll (applyOp [("r", mkRoom "r" 0)] (Op.join "h" "r" "ann" "p1" 1)).1 = true :=
  C1_host_invariant_preserved [("r", mkRoom "r" 0)] (Op.join "h" "r" "ann" "p1" 1)
    (by decide) trivial

/-- Counterexample for C1 as stated: from an empty registry, create a room,
join as host `h`, then have the host remove themselves via
`remove-participant`; afterwards `hostId` is still `some h` but `h` is no
longer a key of `participants`. -/
theorem C1_host_invariant_counterexample :
    hostOkAll (runOps [] [Op.create "r" 0, Op.join "h" "r" "ann" "p1" 1,
      Op.removeP "h" "r" "h" "p1" ["h"]]) = false := by decide

/-- C2 (amended): after every operation, every room's `participants` and
`waitingRoom` key sets stay disjoint — provided a `join-room` request never
comes from a connection already present in that room's `participants` or
`waitingRoom`.  (The unamended claim is refuted by
`C2_disjoint_counterexample`: an already-admitted connection that sends a
second `join-room` with a different display name is added to `waitingRoom`
while still being a participant.) -/
theorem C2_disjoint_preserved (rooms : Registry) (op : Op)
    (h : disjointOkAll rooms = true) (hfresh : joinFresh rooms op) :
    disjointOkAll (applyOp rooms op).1 = true := by
  cases op with
  | create rid now => exact disjointOkAll_createRoom rooms rid now h
  | join s rid u p now => exact disjointOkAll_joinRoom rooms s rid u p now h hfresh
  | approve s rid pid live now => exact disjointOkAll_approve rooms s rid pid live now h
  | deny s rid pid live => exact disjointOkAll_deny rooms s rid pid live h
  | send s rid msg u mid now => exact disjointOkAll_send rooms s rid msg u mid now h
  | audio s rid p e => exact disjointOkAll_audio rooms s rid p e h
  | video s rid p e => exact disjointOkAll_video rooms s rid p e h
  | removeP s rid pid p live =>
    exact disjointOkAll_removeParticipant rooms s rid pid p live h
  | disc s => exact disjointOkAll_disconnectAll rooms s h
  | evict rid => exact disjointOkAll_evict rooms rid h

/-- Witness for C2: a concrete application of the amended disjointness
theorem (a fresh join into a hosted room preserves disjointness). -/
theorem C2_disjoint_witness :
    disjointOkAll (applyOp [("r", mkRoom "r" 0)] (Op.join "b" "r" "bob" "p2" 2)).1 = true :=
  C2_disjoint_preserved [("r", mkRoom "r" 0)] (Op.join "b" "r" "bob" "p2" 2)
    (by decide)
    (by
      intro room hr
      have h0 : room = mkRoom "r" 0 := by
        have h1 : alookup [("r", mkRoom "r" 0)] "r" = some (mkRoom "r" 0) := rfl
        rw [h1] at hr
        exact (Option.some.inj hr).symm
      subst h0
      exact ⟨rfl, rfl⟩)

/-- Counterexample for C2 as stated: from an empty registry, create a room,
join as host `h` (name `ann`), then let the same connection `h` send a
second join with a different name; `h` ends up both a participant and a
waiting-room entry of the same room. -/
theorem C2_disjoint_counterexample :
    disjointOkAll (runOps [] [Op.create "r" 0, Op.join "h" "r" "ann" "p1" 1,
      Op.join "h" "r" "bob" "p1" 2]) = false := by decide

/-- C3 (amended): the duplicate-name check of `join-room`, applied when the
target room currently has a host, is case-sensitive exact string equality:
a request whose display name exactly matches an existing name in
`participants` or `waitingRoom` is rejected with the duplicate-name error
and no state change, while a request with no exact match is placed in the
waiting room — even when its name matches an existing one up to letter
case. -/
theorem C3_duplicate_name_case_sensitive (rooms : Registry) (room : Room)
    (sid rid u p : String) (now : Nat)
    (hr : alookup rooms rid = some room) (hhost : room.hostId.isSome = true)
    (hu : ¬u = "") (hp : ¬p = "") :
    (nameInRoom room u = true →
      joinRoom rooms sid rid u p now =
        (rooms, [Ev.roomError "A user with this name is already in the meeting"])) ∧
    (nameInRoom room u = false →
      ∃ room2, alookup (joinRoom rooms sid rid u p now).1 rid = some room2 ∧
        alookup room2.waitingRoom sid =
          some { id := sid, username := u, peerId := p, socketId := sid
                 requestedAt := now } ∧
        (joinRoom rooms sid rid u p now).2.head? = some Ev.admissionWaiting) := by
  unfold joinRoom
  rw [hr]
  dsimp only
  rw [if_neg (by rw [not_or]; exact ⟨hu, hp⟩)]
  cases hh : room.hostId with
  | none =>
    rw [hh] at hhost
    simp at hhost
  | some hid =>
    constructor
    · intro hdup
      rw [if_pos hdup]
    · intro hdup
      rw [if_neg (by rw [hdup]; exact Bool.false_ne_true)]
      dsimp only
      refine ⟨_, alookup_aset_self _ _ _, alookup_aset_self _ _ _, rfl⟩

/-- Witness for C3: in a room hosted by `h` whose host is named `ann`, a
join request with the exactly matching name `ann` is answered with the
duplicate-name error and the registry is unchanged. -/
theorem C3_duplicate_name_witness :
    joinRoom [("r", roomHosted)] "x" "r" "ann" "p2" 5 =
      ([("r", roomHosted)],
       [Ev.roomError "A user with this name is already in the meeting"]) :=
  (C3_duplicate_name_case_sensitive [("r", roomHosted)] roomHosted "x" "r" "ann" "p2" 5
    (by decide) (by decide) (by decide) (by decide)).1 (by decide)

/-- Counterexample for C3 as stated: in a room hosting `ann` with `alice`
waiting, a join request named `Alice` — equal to `alice` up to letter case
but not equal as a string — is answered `waiting` rather than being
rejected with the duplicate-name error. -/
theorem C3_duplicate_name_counterexample :
    lowerStr "Alice" = lowerStr "alice" ∧ ¬("Alice" = "alice") ∧
    (applyOp (runOps [] [Op.create "r" 0, Op.join "h" "r" "ann" "p1" 1,
        Op.join "a" "r" "alice" "p2" 2]) (Op.join "b" "r" "Alice" "p3" 3)).2.head? =
      some Ev.admissionWaiting :=
  ⟨by decide, by decide, by decide⟩

/-- C4: the `join-room` validation checks apply in order — room existence
first (room-not-found error, reported even when the name or peer id is also
missing), then non-empty `username` and `peerId` (missing-parameters
error) — and a request into a room with no current host is admitted
immediately as host: the requester is inserted into `participants` with the
host flag, `hostId` is set to the requester, `waitingRoom` is untouched and
no uniqueness check is applied. -/
theorem C4_validation_order (rooms : Registry) (sid rid u p : String) (now : Nat) :
    (alookup rooms rid = none →
      joinRoom rooms sid rid u p now = (rooms, [Ev.roomError "Room does not exist"])) ∧
    (∀ room : Room, alookup rooms rid = some room → (u = "" ∨ p = "") →
      joinRoom rooms sid rid u p now =
        (rooms, [Ev.roomError "Username and peer ID are required"])) ∧
    (∀ room : Room, alookup rooms rid = some room → ¬u = "" → ¬p = "" →
      room.hostId = none →
      joinRoom rooms sid rid u p now =
        (aset rooms rid
          { room with hostId := some sid
                      participants := aset room.participants sid
                        { id := sid, username := u, peerId := p, socketId := sid
                          joinedAt := now, audioEnabled := true, videoEnabled := true
                          isHost := true } },
         [Ev.admissionApprovedHost room.chatMessages
            (aset room.participants sid
              { id := sid, username := u, peerId := p, socketId := sid
                joinedAt := now, audioEnabled := true, videoEnabled := true
                isHost := true }),
          Ev.roomParticipants []])) := by
  refine ⟨?_, ?_, ?_⟩
  · intro hr
    unfold joinRoom
    rw [hr]
  · intro room hr hmiss
    unfold joinRoom
    rw [hr]
    dsimp only
    rw [if_pos hmiss]
  · intro room hr hu hp hh
    unfold joinRoom
    rw [hr]
    dsimp only
    rw [if_neg (by rw [not_or]; exact ⟨hu, hp⟩), hh]

/-- Witness for C4: joining a missing room reports room-not-found even with
empty parameters, and joining a hostless room whose waiting room already
holds the requested display name still bootstraps the requester as host
with the waiting room untouched. -/
theorem C4_validation_order_witness :
    joinRoom [] "s" "nope" "" "" 0 = ([], [Ev.roomError "Room does not exist"]) ∧
    joinRoom [("r", roomHostless)] "h" "r" "ann" "p1" 2 =
      (aset [("r", roomHostless)] "r"
        { roomHostless with
            hostId := some "h"
            participants := aset roomHostless.participants "h"
              { id := "h", username := "ann", peerId := "p1", socketId := "h"
                joinedAt := 2, audioEnabled := true, videoEnabled := true
                isHost := true } },
       [Ev.admissionApprovedHost roomHostless.chatMessages
          (aset roomHostless.participants "h"
            { id := "h", username := "ann", peerId := "p1", socketId := "h"
              joinedAt := 2, audioEnabled := true, videoEnabled := true
              isHost := true }),
        Ev.roomParticipants []]) :=
  ⟨(C4_validation_order [] "s" "nope" "" "" 0).1 (by decide),
   (C4_validation_order [("r", roomHostless)] "h" "r" "ann" "p1" 2).2.2 roomHostless
     (by decide) (by decide) (by decide) (by decide)⟩

/-- C5: when the current host disconnects from a room in which it is a
participant, the host role transfers to the first remaining participant in
insertion order: `hostId` becomes that participant's id, the new host
receives a `host-transferred` notice, the room receives a `host-changed`
broadcast naming the new host, and the departing host is removed from
`participants`; when no participant remains, `hostId` becomes `none`. -/
theorem C5_host_succession (rid : String) (room : Room) (sid : String)
    (part : Participant) (hp : alookup room.participants sid = some part)
    (hh : room.hostId = some sid) :
    (∀ nh rest, (akeys room.participants).filter (fun k => k ≠ sid) = nh :: rest →
      ∃ q : Participant, alookup room.participants nh = some q ∧
        (disconnectRoom rid room sid).1.hostId = some nh ∧
        (alookup (disconnectRoom rid room sid).1.participants nh).isSome = true ∧
        alookup (disconnectRoom rid room sid).1.participants sid = none ∧
        Ev.hostTransferred nh ∈ (disconnectRoom rid room sid).2 ∧
        Ev.hostChanged nh q.username ∈ (disconnectRoom rid room sid).2) ∧
    ((akeys room.participants).filter (fun k => k ≠ sid) = [] →
      (disconnectRoom rid room sid).1.hostId = none) := by
  unfold disconnectRoom
  rw [hp]
  dsimp only
  rw [if_pos hh]
  constructor
  · intro nh rest hfil
    rw [hfil]
    dsimp only
    have hmem : nh ∈ (akeys room.participants).filter (fun k => k ≠ sid) := by
      rw [hfil]
      exact List.mem_cons_self _ _
    rw [List.mem_filter] at hmem
    have hnhkey := mem_akeys_isSome _ _ hmem.1
    have hnhsid : nh ≠ sid := by simpa using hmem.2
    cases hnh : alookup room.participants nh with
    | none =>
      rw [hnh] at hnhkey
      simp at hnhkey
    | some q =>
      dsimp only
      refine ⟨q, rfl, ?_⟩
      cases hw : alookup room.waitingRoom sid with
      | none =>
        refine ⟨rfl, ?_, ?_, ?_, ?_⟩
        · rw [alookup_aerase, if_neg hnhsid, alookup_aset_self]
          rfl
        · rw [alookup_aerase, if_pos rfl]
        · simp
        · simp
      | some w =>
        refine ⟨rfl, ?_, ?_, ?_, ?_⟩
        · rw [alookup_aerase, if_neg hnhsid, alookup_aset_self]
          rfl
        · rw [alookup_aerase, if_pos rfl]
        · simp
        · simp
  · intro hfil
    rw [hfil]
    dsimp only
    cases hw : alookup room.waitingRoom sid with
    | none => rfl
    | some w => rfl

/-- Witness for C5: in `roomTwo` (host `alice` on connection `a`,
participant `bob` on connection `b`), disconnecting `a` makes `b` the host
and emits the `host-transferred` and `host-changed` notices naming `bob`. -/
theorem C5_host_succession_witness :
    (disconnectRoom "r" roomTwo "a").1.hostId = some "b" ∧
    alookup (disconnectRoom "r" roomTwo "a").1.participants "a" = none ∧
    Ev.hostTransferred "b" ∈ (disconnectRoom "r" roomTwo "a").2 ∧
    Ev.hostChanged "b" "bob" ∈ (disconnectRoom "r" roomTwo "a").2 := by
  obtain ⟨q, hq, h1, h2, h3, h4, h5⟩ :=
    (C5_host_succession "r" roomTwo "a" pAlice (by decide) (by decide)).1 "b" []
      (by decide)
  have hqb : q = pBob := by
    have h0 : alookup roomTwo.participants "b" = some pBob := by decide
    rw [h0] at hq
    exact (Option.some.inj hq).symm
  subst hqb
  exact ⟨h1, h3, h4, h5⟩

/-- C6: `approve-participant` and `deny-participant` leave the registry
completely unchanged and answer with an error when the requester is not the
room's current host (unauthorized) or when the target id is not a key of
the room's waiting room (not-found). -/
theorem C6_approve_deny_guards (rooms : Registry) (room : Room)
    (sid rid pid : String) (live : List String) (now : Nat)
    (hr : alookup rooms rid = some room) :
    (room.hostId ≠ some sid →
      approveParticipant rooms sid rid pid live now =
        (rooms, [Ev.errMsg "Unauthorized: Only host can approve participants"]) ∧
      denyParticipant rooms sid rid pid live =
        (rooms, [Ev.errMsg "Unauthorized: Only host can deny participants"])) ∧
    (room.hostId = some sid → alookup room.waitingRoom pid = none →
      approveParticipant rooms sid rid pid live now =
        (rooms, [Ev.errMsg "Participant not found in waiting room"]) ∧
      denyParticipant rooms sid rid pid live =
        (rooms, [Ev.errMsg "Participant not found in waiting room"])) := by
  constructor
  · intro hne
    constructor
    · unfold approveParticipant
      rw [hr]
      dsimp only
      rw [if_pos hne]
    · unfold denyParticipant
      rw [hr]
      dsimp only
      rw [if_pos hne]
  · intro hh hw
    constructor
    · unfold approveParticipant
      rw [hr]
      dsimp only
      rw [if_neg (fun hc => hc hh), hw]
    · unfold denyParticipant
      rw [hr]
      dsimp only
      rw [if_neg (fun hc => hc hh), hw]

/-- Witness for C6: in `roomHosted` (host `h`), a non-host `z` gets the
unauthorized error from approve and deny, and the host gets the not-found
error when targeting an id absent from the (empty) waiting room; the
registry is unchanged in all four cases. -/
theorem C6_approve_deny_guards_witness :
    approveParticipant [("r", roomHosted)] "z" "r" "a" [] 9 =
      ([("r", roomHosted)], [Ev.errMsg "Unauthorized: Only host can approve participants"]) ∧
    denyParticipant [("r", roomHosted)] "z" "r" "a" [] =
      ([("r", roomHosted)], [Ev.errMsg "Unauthorized: Only host can deny participants"]) ∧
    approveParticipant [("r", roomHosted)] "h" "r" "ghost" [] 9 =
      ([("r", roomHosted)], [Ev.errMsg "Participant not found in waiting room"]) ∧
    denyParticipant [("r", roomHosted)] "h" "r" "ghost" [] =
      ([("r", roomHosted)], [Ev.errMsg "Participant not found in waiting room"]) := by
  obtain ⟨ha, hd⟩ :=
    (C6_approve_deny_guards [("r", roomHosted)] roomHosted "z" "r" "a" [] 9
      (by decide)).1 (by decide)
  obtain ⟨ha2, hd2⟩ :=
    (C6_approve_deny_guards [("r", roomHosted)] roomHosted "h" "r" "ghost" [] 9
      (by decide)).2 (by decide) (by decide)
  exact ⟨ha, hd, ha2, hd2⟩

theorem getLast_takeLast_concat (c : List α) (m : α) (n : Nat) (h : 0 < n) :
    (takeLast (c ++ [m]) n).getLast? = some m := by
  unfold takeLast
  have hk : (c ++ [m]).length - n ≤ c.length := by
    rw [List.length_append]
    simp
    omega
  rw [List.drop_append_of_le_length hk, List.getLast?_concat]

/-- C7: a successful chat send appends the new message to the room's log
and truncates to the most recent 100 entries: a log that was at most 100
long stays at most 100 long, a log that was exactly 100 long becomes its
own tail (oldest dropped) followed by the new message, and the new message
is broadcast to the whole room (including the sender, `io.to(roomId)`). -/
theorem C7_chat_log_bound (rooms : Registry) (room : Room)
    (sid rid msg u mid : String) (now : Nat)
    (hr : alookup rooms rid = some room)
    (hin : (alookup room.participants sid).isNone = false)
    (hne : ¬strTrim msg = "")
    (hlen : ¬500 < strLen (strTrim msg)) :
    ∃ room2, alookup (sendMessage rooms sid rid msg u mid now).1 rid = some room2 ∧
      (room.chatMessages.length ≤ 100 → room2.chatMessages.length ≤ 100) ∧
      (room.chatMessages.length = 100 →
        room2.chatMessages = room.chatMessages.drop 1 ++
          [{ id := mid, username := u, message := strTrim msg, timestamp := now
             senderId := sid, isHost := decide (room.hostId = some sid) }]) ∧
      (sendMessage rooms sid rid msg u mid now).2 =
        [Ev.newMessage { id := mid, username := u, message := strTrim msg
                         timestamp := now, senderId := sid
                         isHost := decide (room.hostId = some sid) }] := by
  unfold sendMessage
  rw [hr]
  dsimp only
  rw [if_neg (by rw [hin]; exact Bool.false_ne_true), if_neg hne, if_neg hlen]
  dsimp only
  refine ⟨_, alookup_aset_self _ _ _, ?_, ?_, rfl⟩
  · intro hb
    dsimp only
    split
    · rw [takeLast, List.length_drop]
      omega
    · rename_i hgt
      rw [List.length_append] at hgt ⊢
      simp at hgt ⊢
      omega
  · intro h100
    dsimp only
    rw [if_pos (by rw [List.length_append, h100]; simp)]
    rw [takeLast, List.length_append, h100]
    have h1 : 100 + [({ id := mid, username := u, message := strTrim msg
                        timestamp := now, senderId := sid
                        isHost := decide (room.hostId = some sid) } : ChatMessage)].length - 100
        = 1 := by simp
    rw [h1, List.drop_append_of_le_length (by omega)]

/-- Witness for C7: sending `hi` into a room whose log holds exactly 100
copies of `m0` evicts the oldest entry and leaves the newest 100 in order,
with the new message broadcast. -/
theorem C7_chat_log_bound_witness :
    alookup (sendMessage [("r", roomChat100)] "h" "r" "hi" "u2" "m1" 7).1 "r" =
      some { roomChat100 with chatMessages := List.replicate 99 m0 ++ [mNew] } ∧
    (List.replicate 99 m0 ++ [mNew]).length = 100 ∧
    (sendMessage [("r", roomChat100)] "h" "r" "hi" "u2" "m1" 7).2 =
      [Ev.newMessage mNew] := by
  obtain ⟨room2, h1, h2, h3, h4⟩ :=
    C7_chat_log_bound [("r", roomChat100)] roomChat100 "h" "r" "hi" "u2" "m1" 7
      (by decide) (by decide) (by decide) (by decide)
  have h5 := h3 (by decide)
  have h0 : room2 = { roomChat100 with chatMessages := List.replicate 99 m0 ++ [mNew] } := by
    have h6 : alookup (sendMessage [("r", roomChat100)] "h" "r" "hi" "u2" "m1" 7).1 "r" =
        some { roomChat100 with chatMessages := List.replicate 99 m0 ++ [mNew] } := by decide
    rw [h6] at h1
    exact (Option.some.inj h1).symm
  constructor
  · rw [← h0]
    exact h1
  · exact ⟨by decide, by rw [h4]; decide⟩

/-- C8: when the scheduled eviction timer fires it re-checks the room: a
room that still exists with both `participants` and `waitingRoom` empty is
deleted from the registry; a room that has any participant or waiting entry
is left untouched (the whole registry is unchanged). -/
theorem C8_eviction_recheck (rooms : Registry) (rid : String) :
    (∀ room : Room, alookup rooms rid = some room →
      (room.participants.isEmpty && room.waitingRoom.isEmpty) = true →
      alookup (fireEviction rooms rid) rid = none) ∧
    (∀ room : Room, alookup rooms rid = some room →
      (room.participants.isEmpty && room.waitingRoom.isEmpty) = false →
      fireEviction rooms rid = rooms) := by
  constructor
  · intro room hr hempty
    unfold fireEviction
    rw [hr]
    dsimp only
    rw [Bool.and_eq_true] at hempty
    rw [if_pos ⟨hempty.1, hempty.2⟩]
    rw [alookup_aerase, if_pos rfl]
  · intro room hr hne
    unfold fireEviction
    rw [hr]
    dsimp only
    rw [if_neg (fun hc => by rw [hc.1, hc.2] at hne; simp at hne)]

/-- Witness for C8: the timer deletes a still-empty room and leaves a room
with a participant untouched. -/
theorem C8_eviction_recheck_witness :
    alookup (fireEviction [("r", mkRoom "r" 0)] "r") "r" = none ∧
    fireEviction [("r", roomHosted)] "r" = [("r", roomHosted)] :=
  ⟨(C8_eviction_recheck [("r", mkRoom "r" 0)] "r").1 (mkRoom "r" 0)
      (by decide) (by decide),
   (C8_eviction_recheck [("r", roomHosted)] "r").2 roomHosted
      (by decide) (by decide)⟩

/-- C9: when the host approves a waiting entry whose connection is no
longer alive, the entry is still promoted into `participants` (with no
live connection behind it) and removed from `waitingRoom`, while none of
the approval notifications are sent — the only emission is the host's
waiting-list update. -/
theorem C9_approve_dead_socket (rooms : Registry) (room : Room)
    (sid rid pid : String) (live : List String) (now : Nat) (w : WaitingEntry)
    (hr : alookup rooms rid = some room)
    (hh : room.hostId = some sid)
    (hw : alookup room.waitingRoom pid = some w)
    (hdead : pid ∉ live) :
    approveParticipant rooms sid rid pid live now =
      (aset rooms rid
        { room with
            participants := aset room.participants pid
              { id := w.id, username := w.username, peerId := w.peerId
                socketId := w.socketId, joinedAt := now
                audioEnabled := true, videoEnabled := true, isHost := false }
            waitingRoom := aerase room.waitingRoom pid },
       [Ev.waitingRoomUpdate ((aerase room.waitingRoom pid).map (fun q => q.2))]) := by
  unfold approveParticipant
  rw [hr]
  dsimp only
  rw [if_neg (fun hc => hc hh), hw]
  dsimp only
  rw [if_neg hdead, List.nil_append]

/-- Witness for C9: approving the waiting entry `a` of `roomWaiting` while
no connection `a` is alive still moves `ann` into `participants`, empties
the waiting room, and emits only the waiting-list update. -/
theorem C9_approve_dead_socket_witness :
    approveParticipant [("r", roomWaiting)] "h" "r" "a" [] 9 =
      ([("r", { roomWaiting with
                  participants := [("h", pHostAnn),
                    ("a", { id := "a", username := "ann", peerId := "p2", socketId := "a"
                            joinedAt := 9, audioEnabled := true, videoEnabled := true
                            isHost := false })]
                  waitingRoom := [] })],
       [Ev.waitingRoomUpdate []]) := by
  have h := C9_approve_dead_socket [("r", roomWaiting)] roomWaiting "h" "r" "a" [] 9 wAnn
    (by decide) (by decide) (by decide) (by decide)
  rw [h]
  decide

/-- C10: the chat message stored in the room's log and broadcast to the
room carries the client-supplied `username` field of the send event as its
author, independent of the sender's registered display name in
`participants`. -/
theorem C10_author_from_payload (rooms : Registry) (room : Room)
    (sid rid msg u mid : String) (now : Nat) (p : Participant)
    (hr : alookup rooms rid = some room)
    (hp : alookup room.participants sid = some p)
    (hne : ¬strTrim msg = "")
    (hlen : ¬500 < strLen (strTrim msg)) :
    ∃ room2, alookup (sendMessage rooms sid rid msg u mid now).1 rid = some room2 ∧
      room2.chatMessages.getLast?.map (fun m => m.username) = some u ∧
      (sendMessage rooms sid rid msg u mid now).2 =
        [Ev.newMessage { id := mid, username := u, message := strTrim msg
                         timestamp := now, senderId := sid
                         isHost := decide (room.hostId = some sid) }] := by
  unfold sendMessage
  rw [hr]
  dsimp only
  rw [if_neg (by rw [hp]; exact Bool.false_ne_true), if_neg hne, if_neg hlen]
  dsimp only
  refine ⟨_, alookup_aset_self _ _ _, ?_, rfl⟩
  dsimp only
  split
  · rw [getLast_takeLast_concat _ _ _ (by omega)]
    rfl
  · rw [List.getLast?_concat]
    rfl

/-- Witness for C10: the sender registered as `ann` supplies the username
`zoe`; the broadcast message is attributed to `zoe`. -/
theorem C10_author_from_payload_witness :
    (sendMessage [("r", roomHosted)] "h" "r" "hello" "zoe" "m1" 7).2 =
      [Ev.newMessage { id := "m1", username := "zoe", message := "hello"
                       timestamp := 7, senderId := "h", isHost := true }] ∧
    pHostAnn.username = "ann" ∧ ¬("zoe" = "ann") := by
  obtain ⟨room2, h1, h2, h3⟩ :=
    C10_author_from_payload [("r", roomHosted)] roomHosted "h" "r" "hello" "zoe" "m1" 7
      pHostAnn (by decide) (by decide) (by decide) (by decide)
  refine ⟨by rw [h3]; decide, by decide, by decide⟩
